import Mathlib

/- Shallow embedding of streamvc/encoder_decoder.py.

Tensors with one time axis are modelled channel-major: a `Sig` holds a channel
count, a time length, and a total valuation function; indices outside the
stated bounds carry junk values no theorem depends on.  Sample values are
rationals standing for exact real arithmetic.  `nn.ELU` is a fixed pointwise
real function; it enters the embedding as an arbitrary parameter
`act : ℚ → ℚ` applied pointwise, which is all that the shape and causality
statements consume.  Batch axes are elided: every batch element is processed
independently by the same formulas. -/

/-- Channel-major signal tensor `(channels, time)`. -/
structure Sig where
  ch : ℕ
  len : ℕ
  val : ℕ → ℕ → ℚ

/-- A raw waveform `(samples,)`. -/
structure Wave where
  len : ℕ
  val : ℕ → ℚ

/-- Frame-major tensor `(frames, embedding)` as produced by the final
`Rearrange` of `Encoder` and consumed by `Decoder`. -/
structure Frames where
  frames : ℕ
  dim : ℕ
  val : ℕ → ℕ → ℚ

/-- Weights and bias of one convolution layer: `w o c i` is the weight at
output channel `o`, input channel `c`, tap `i`; `b o` is the bias. -/
structure WB where
  w : ℕ → ℕ → ℕ → ℚ
  b : ℕ → ℚ

/-- The quantity `causal_padding = dilation * (kernel_size - 1) - (stride - 1)` from
`CausalConv1d.__init__` (an integer: it is negative when
`stride > dilation*(kernel_size-1)+1`). -/
def causalPadding (k s d : ℕ) : ℤ := (d : ℤ) * ((k : ℤ) - 1) - ((s : ℤ) - 1)

/-- Time length after `F.pad(x, (p, 0))`: a nonnegative `p` prepends `p`
entries, a negative `p` drops `-p` leading entries. -/
def padLen (p : ℤ) (T : ℕ) : ℕ := ((T : ℤ) + p).toNat

/-- Model of `F.pad(x, (p, 0), mode='constant', value=0)` on the time axis. -/
def padLeft (p : ℤ) (x : Sig) : Sig :=
  ⟨x.ch, padLen p x.len,
   fun c t =>
     if 0 ≤ p then (if t < p.toNat then 0 else x.val c (t - p.toNat))
     else x.val c (t + p.natAbs)⟩

/-- The `nn.Conv1d` (padding=0) output time length
`floor((L - dilation*(kernel_size-1) - 1)/stride) + 1`; the value 0 marks the
"output size too small" error torch raises when `L < dilation*(kernel_size-1)+1`. -/
def validConvLen (k s d L : ℕ) : ℕ :=
  if d * (k - 1) + 1 ≤ L then (L - (d * (k - 1) + 1)) / s + 1 else 0

/-- Model of `nn.Conv1d` with `padding=0` on a channel-major signal:
`out[o][j] = b[o] + Σ_c Σ_i w[o][c][i] * x[c][stride*j + dilation*i]`. -/
def validConv (inCh outCh k s d : ℕ) (p : WB) (x : Sig) : Sig :=
  ⟨outCh, validConvLen k s d x.len,
   fun o j => p.b o + ∑ c in Finset.range inCh, ∑ i in Finset.range k,
     p.w o c i * x.val c (s * j + d * i)⟩

/-- Model of `CausalConv1d.forward`: left-pad by `causal_padding`, then the plain
convolution with the constructed kernel/stride/dilation and built-in padding 0. -/
def causalConv1d (inCh outCh k s d : ℕ) (p : WB) (x : Sig) : Sig :=
  validConv inCh outCh k s d p (padLeft (causalPadding k s d) x)

/-- Time length produced by `CausalConv1d` from input time length `T`. -/
def ccLen (k s d T : ℕ) : ℕ := validConvLen k s d (padLen (causalPadding k s d) T)

/-- A pointwise activation layer (`nn.ELU()` in the source). -/
def pointwise (act : ℚ → ℚ) (x : Sig) : Sig :=
  ⟨x.ch, x.len, fun c t => act (x.val c t)⟩

/-- The elementwise sum `fn(x) + x` computed by `Residual.forward`
(shape metadata taken from the first operand). -/
def addSig (a b : Sig) : Sig := ⟨a.ch, a.len, fun c t => a.val c t + b.val c t⟩

/-- The sub-network `ResidualUnit` wraps in `Residual`:
`CausalConv1d(ch, ch, kernel_size, dilation=dilation)` → ELU →
`CausalConv1d(ch, ch, kernel_size=1)` → ELU. -/
def residualUnitFn (channels dil k : ℕ) (p1 p2 : WB) (act : ℚ → ℚ) (x : Sig) : Sig :=
  pointwise act (causalConv1d channels channels 1 1 1 p2
    (pointwise act (causalConv1d channels channels k 1 dil p1 x)))

/-- Model of `ResidualUnit(channels, dilation, kernel_size=7)`: `Residual` applied to
`residualUnitFn`, i.e. `fn(x) + x`. -/
def residualUnit (channels dil k : ℕ) (p1 p2 : WB) (act : ℚ → ℚ) (x : Sig) : Sig :=
  addSig (residualUnitFn channels dil k p1 p2 act x) x

/-- Parameters of one `EncoderBlock`: the three residual units
(two convolutions each) and the strided downsampling convolution. -/
structure EncBlockP where
  r1a : WB
  r1b : WB
  r2a : WB
  r2b : WB
  r3a : WB
  r3b : WB
  down : WB

/-- Model of `EncoderBlock(in_channels, out_channels, stride)`: residual units with
dilations 1, 3, 9, then `CausalConv1d(in, out, kernel_size=2*stride,
stride=stride)`, then ELU. -/
def encoderBlock (inCh outCh s : ℕ) (P : EncBlockP) (act : ℚ → ℚ) (x : Sig) : Sig :=
  pointwise act (causalConv1d inCh outCh (2 * s) s 1 P.down
    (residualUnit inCh 9 7 P.r3a P.r3b act
      (residualUnit inCh 3 7 P.r2a P.r2b act
        (residualUnit inCh 1 7 P.r1a P.r1b act x))))

/-- Parameters of the full `Encoder`. -/
structure EncoderP where
  stem : WB
  blk1 : EncBlockP
  blk2 : EncBlockP
  blk3 : EncBlockP
  blk4 : EncBlockP
  proj : WB

/-- The reshape `Rearrange('... samples -> ... 1 samples')`. -/
def waveToSig (w : Wave) : Sig := ⟨1, w.len, fun _ t => w.val t⟩

/-- The reshape `Rearrange('... embedding frames -> ... frames embedding')`. -/
def sigToFrames (x : Sig) : Frames := ⟨x.len, x.ch, fun f e => x.val e f⟩

/-- Model of `Encoder.forward`: reshape to one channel → `CausalConv1d(1, scale, 7)` →
ELU → four `EncoderBlock`s with strides 2, 4, 5, 8 →
`CausalConv1d(16*scale, embedding_dim, 3)` → ELU → frame-major reshape. -/
def encoder (scale embDim : ℕ) (P : EncoderP) (act : ℚ → ℚ) (w : Wave) : Frames :=
  sigToFrames (pointwise act (causalConv1d (16 * scale) embDim 3 1 1 P.proj
    (encoderBlock (8 * scale) (16 * scale) 8 P.blk4 act
      (encoderBlock (4 * scale) (8 * scale) 5 P.blk3 act
        (encoderBlock (2 * scale) (4 * scale) 4 P.blk2 act
          (encoderBlock scale (2 * scale) 2 P.blk1 act
            (pointwise act (causalConv1d 1 scale 7 1 1 P.stem (waveToSig w)))))))))

/-- The `nn.ConvTranspose1d` (padding=0, output_padding=0) raw output time length
`(T-1)*stride + dilation*(kernel_size-1) + 1`; the value 0 marks the error
torch raises on an empty input. -/
def rawConvTLen (k s d T : ℕ) : ℕ := if 1 ≤ T then (T - 1) * s + d * (k - 1) + 1 else 0

/-- Model of `nn.ConvTranspose1d` with `padding=0`, `output_padding=0`:
`out[o][m] = b[o] + Σ_c Σ_{j,i with stride*j + dilation*i = m} w[c][o][i] * x[c][j]`. -/
def validConvT (inCh outCh k s d : ℕ) (p : WB) (x : Sig) : Sig :=
  ⟨outCh, rawConvTLen k s d x.len,
   fun o m => p.b o + ∑ c in Finset.range inCh, ∑ j in Finset.range x.len,
     ∑ i in Finset.range k, if s * j + d * i = m then p.w c o i * x.val c j else 0⟩

/-- Time length of the Python slice `x[..., :stop]`: a negative `stop` keeps
`len + stop` entries (clamped at 0), a nonnegative `stop` keeps
`min stop len`; in particular `stop = 0` keeps nothing. -/
def sliceLen (stop : ℤ) (L : ℕ) : ℕ :=
  if stop < 0 then L - stop.natAbs else min stop.toNat L

/-- Python slice `x[..., :stop]` on the time axis (a prefix, so values keep
their indices). -/
def sliceStop (stop : ℤ) (x : Sig) : Sig := ⟨x.ch, sliceLen stop x.len, x.val⟩

/-- The quantity `causal_trim = dilation * (kernel_size - 1) - (stride - 1)` from
`CausalConvTranspose1d.__init__`. -/
def causalTrim (k s d : ℕ) : ℤ := (d : ℤ) * ((k : ℤ) - 1) - ((s : ℤ) - 1)

/-- Model of `CausalConvTranspose1d.forward`: the transposed convolution followed by
the right trim `out[..., :-causal_trim]`. -/
def causalConvTranspose1d (inCh outCh k s d : ℕ) (p : WB) (x : Sig) : Sig :=
  sliceStop (-(causalTrim k s d)) (validConvT inCh outCh k s d p x)

/-- Time length produced by `CausalConvTranspose1d` from input time length `T`. -/
def ctLen (k s d T : ℕ) : ℕ := sliceLen (-(causalTrim k s d)) (rawConvTLen k s d T)

/-- Weights and bias of one `nn.Linear`. -/
structure LinP where
  w : ℕ → ℕ → ℚ
  b : ℕ → ℚ

/-- Model of `nn.Linear(conditioning_dim, dim)` applied to a conditioning vector:
output channel `c` is `Σ_j w[c][j] * cond[j] + b[c]`. -/
def linAp (condDim : ℕ) (L : LinP) (cond : ℕ → ℚ) (c : ℕ) : ℚ :=
  (∑ j in Finset.range condDim, L.w c j * cond j) + L.b c

/-- Parameters of one `FiLM` layer: the `to_gamma` and `to_beta` linear maps. -/
structure FilmP where
  toGamma : LinP
  toBeta : LinP

/-- Model of `FiLM.forward`: `gamma = to_gamma(condition)`, `beta = to_beta(condition)`,
both unsqueezed on a trailing axis so they broadcast along time, then
`x * gamma + beta`. -/
def film (condDim : ℕ) (P : FilmP) (x : Sig) (cond : ℕ → ℚ) : Sig :=
  ⟨x.ch, x.len,
   fun c t => x.val c t * linAp condDim P.toGamma cond c + linAp condDim P.toBeta cond c⟩

/-- Parameters of one `DecoderBlock`: the strided transposed convolution and
the three residual units. -/
structure DecBlockP where
  up : WB
  r1a : WB
  r1b : WB
  r2a : WB
  r2b : WB
  r3a : WB
  r3b : WB

/-- Model of `DecoderBlock(in_channels, out_channels, stride)`:
`CausalConvTranspose1d(in, out, kernel_size=2*stride, stride=stride)`, then
residual units with dilations 1, 3, 9. -/
def decoderBlock (inCh outCh s : ℕ) (P : DecBlockP) (act : ℚ → ℚ) (x : Sig) : Sig :=
  residualUnit outCh 9 7 P.r3a P.r3b act
    (residualUnit outCh 3 7 P.r2a P.r2b act
      (residualUnit outCh 1 7 P.r1a P.r1b act
        (causalConvTranspose1d inCh outCh (2 * s) s 1 P.up x)))

/-- Parameters of the full `Decoder`. -/
structure DecoderP where
  stem : WB
  blk1 : DecBlockP
  film1 : FilmP
  blk2 : DecBlockP
  film2 : FilmP
  blk3 : DecBlockP
  film3 : FilmP
  blk4 : DecBlockP
  film4 : FilmP
  proj : WB

/-- The reshape `Rearrange('... frames embedding -> ... embedding frames')`. -/
def framesToSig (f : Frames) : Sig := ⟨f.dim, f.frames, fun c t => f.val t c⟩

/-- The reshape `Rearrange('... 1 samples -> ... samples')`. -/
def sigToWave (x : Sig) : Wave := ⟨x.len, fun t => x.val 0 t⟩

/-- Model of `Decoder.forward` through `SequentialWithFiLM`: the conditioning vector is
passed exactly to the `FiLM` stages, the plain signal to every other stage:
channel-major reshape → `CausalConv1d(embedding_dim, 16*scale, 7)` → ELU →
four `DecoderBlock`s with strides 8, 5, 4, 2, each followed by a `FiLM` →
`CausalConv1d(scale, 1, 7)` → waveform reshape. -/
def decoder (scale embDim condDim : ℕ) (P : DecoderP) (act : ℚ → ℚ)
    (f : Frames) (cond : ℕ → ℚ) : Wave :=
  sigToWave (causalConv1d scale 1 7 1 1 P.proj
    (film condDim P.film4
      (decoderBlock (2 * scale) scale 2 P.blk4 act
        (film condDim P.film3
          (decoderBlock (4 * scale) (2 * scale) 4 P.blk3 act
            (film condDim P.film2
              (decoderBlock (8 * scale) (4 * scale) 5 P.blk2 act
                (film condDim P.film1
                  (decoderBlock (16 * scale) (8 * scale) 8 P.blk1 act
                    (pointwise act
                      (causalConv1d embDim (16 * scale) 7 1 1 P.stem (framesToSig f))))
                  cond))
              cond))
          cond))
      cond))

/-- Shape-level outcome of `nn.MultiheadAttention.forward` (`batch_first`,
one head): torch first runs its shape check — a 3-D query demands 3-D key and
value, a 2-D query demands 2-D key and value, anything else is rejected — and
on success the call returns the TUPLE `(attn_output, attn_output_weights)`,
with `attn_output` shaped like the query. -/
def mhaForwardShape (q k v : List ℕ) : Except String (List ℕ × List ℕ) :=
  if q.length = 3 then
    if k.length = 3 ∧ v.length = 3 then
      Except.ok (q, [q.headD 0, q.getD 1 0, k.getD 1 0])
    else Except.error "AssertionError: key and value must be 3-D when query is 3-D"
  else if q.length = 2 then
    if k.length = 2 ∧ v.length = 2 then
      Except.ok (q, [q.headD 0, k.headD 0])
    else Except.error "AssertionError: key and value must be 2-D when query is 2-D"
  else Except.error "AssertionError: query must be 2-D or 3-D"

/-- Model of `LearnablePooling.forward` at shape level.  The stored query
`pooling_weights` has shape `[1, dim]`.  The source then evaluates
`self.attention(self.pooling_weights, x, x).squeeze(-2)`: when the attention
call itself survives its shape check it still returns a tuple, and `.squeeze`
on a tuple is an AttributeError, so no input shape can reach an `ok` result. -/
def learnablePoolingForward (dim : ℕ) (xShape : List ℕ) : Except String (List ℕ) :=
  match mhaForwardShape [1, dim] xShape xShape with
  | Except.error e => Except.error e
  | Except.ok _ => Except.error "AttributeError: tuple object has no attribute squeeze"

/-- The pad modes `F.pad` implements; any other mode string raises
NotImplementedError inside `F.pad`, i.e. at forward-call time. -/
def fPadModes : List String := ["constant", "reflect", "replicate", "circular"]

/-- Model of `CausalConv1d.__init__` at configuration level.  `kwargs` is the set of
extra keyword-argument names; the only construction-time check is the assert
that `padding` is absent.  The `padding_mode` string is NOT forwarded to
`nn.Conv1d.__init__` (which would validate it) — it is merely captured into
the stored pad function, with `zeros` mapped to `F.pad` mode `constant`.
Returns the stored pad mode. -/
def causalConv1dInit (kwargs : List String) (paddingMode : String) : Except String String :=
  if "padding" ∈ kwargs then Except.error "AssertionError: padding in kwargs"
  else Except.ok (if paddingMode = "zeros" then "constant" else paddingMode)

/-- Model of `CausalConvTranspose1d.__init__` at configuration level: asserts that
neither `padding` nor `output_padding` is supplied. -/
def causalConvTranspose1dInit (kwargs : List String) : Except String Unit :=
  if "padding" ∈ kwargs ∨ "output_padding" ∈ kwargs then
    Except.error "AssertionError: padding or output_padding in kwargs"
  else Except.ok ()

/-- The mode check performed by the `F.pad` call inside
`CausalConv1d.forward` — the first point where an unknown pad mode errors. -/
def fPadModeCheck (mode : String) : Except String Unit :=
  if mode ∈ fPadModes then Except.ok () else
    Except.error "NotImplementedError: unknown padding mode"

/-- All-zero convolution parameters, for concrete instantiations. -/
def zeroWB : WB := ⟨fun _ _ _ => 0, fun _ => 0⟩

/-- All-zero encoder block parameters. -/
def zeroEncBlockP : EncBlockP := ⟨zeroWB, zeroWB, zeroWB, zeroWB, zeroWB, zeroWB, zeroWB⟩

/-- All-zero encoder parameters. -/
def zeroEncoderP : EncoderP := ⟨zeroWB, zeroEncBlockP, zeroEncBlockP, zeroEncBlockP, zeroEncBlockP, zeroWB⟩

/-- All-zero decoder block parameters. -/
def zeroDecBlockP : DecBlockP := ⟨zeroWB, zeroWB, zeroWB, zeroWB, zeroWB, zeroWB, zeroWB⟩

/-- All-zero linear-layer parameters. -/
def zeroLinP : LinP := ⟨fun _ _ => 0, fun _ => 0⟩

/-- A linear layer with zero weights and all-ones bias: it maps every input to
the all-ones vector. -/
def onesLinP : LinP := ⟨fun _ _ => 0, fun _ => 1⟩

/-- All-zero FiLM parameters. -/
def zeroFilmP : FilmP := ⟨zeroLinP, zeroLinP⟩

/-- FiLM parameters whose `to_gamma` is constantly all-ones and whose
`to_beta` is constantly all-zeros. -/
def idFilmP : FilmP := ⟨onesLinP, zeroLinP⟩

/-- All-zero decoder parameters. -/
def zeroDecoderP : DecoderP :=
  ⟨zeroWB, zeroDecBlockP, zeroFilmP, zeroDecBlockP, zeroFilmP, zeroDecBlockP, zeroFilmP,
   zeroDecBlockP, zeroFilmP, zeroWB⟩

/-- The constant-zero waveform of length `T`. -/
def constWave (T : ℕ) : Wave := ⟨T, fun _ => 0⟩

/-- A waveform of length `T` that is 0 on samples `[0, t0]` and 1 after. -/
def stepWave (T t0 : ℕ) : Wave := ⟨T, fun t => if t ≤ t0 then 0 else 1⟩

/-- The constant-zero embedding sequence with `F` frames of dimension `D`. -/
def constFrames (F D : ℕ) : Frames := ⟨F, D, fun _ _ => 0⟩

/-- The constant-zero signal with `C` channels and `T` time steps. -/
def constSig (C T : ℕ) : Sig := ⟨C, T, fun _ _ => 0⟩

/-- Time length through one `ResidualUnit` (two causal convolutions of
kernel sizes 7 and 1, stride 1). -/
def ruLen (dil T : ℕ) : ℕ := ccLen 1 1 1 (ccLen 7 1 dil T)

/-- Time length through one `EncoderBlock` of stride `s`. -/
def encBlockLen (s T : ℕ) : ℕ := ccLen (2 * s) s 1 (ruLen 9 (ruLen 3 (ruLen 1 T)))

/-- Time length (frame count) through the whole `Encoder`. -/
def encFramesLen (T : ℕ) : ℕ :=
  ccLen 3 1 1 (encBlockLen 8 (encBlockLen 5 (encBlockLen 4 (encBlockLen 2 (ccLen 7 1 1 T)))))

/-! ### Time-length arithmetic -/

theorem ccLen_eq (k s d T : ℕ) (hk : 1 ≤ k) (hs : 1 ≤ s) (hT : s ≤ T) :
    ccLen k s d T = (T - s) / s + 1 := by
  have hk1 : ((k : ℤ) - 1) = ((k - 1 : ℕ) : ℤ) := by omega
  unfold ccLen causalPadding padLen validConvLen
  rw [hk1]
  have h2 : (d : ℤ) * ((k - 1 : ℕ) : ℤ) = ((d * (k - 1) : ℕ) : ℤ) := by push_cast; ring
  rw [h2]
  have h3 : ((T : ℤ) + (((d * (k - 1) : ℕ) : ℤ) - ((s : ℤ) - 1))).toNat
      = T + d * (k - 1) + 1 - s := by omega
  rw [h3, if_pos (by omega)]
  congr 2
  omega

theorem ccLen_s1 (k d T : ℕ) (hk : 1 ≤ k) (hT : 1 ≤ T) : ccLen k 1 d T = T := by
  rw [ccLen_eq k 1 d T hk le_rfl hT, Nat.div_one]
  omega

theorem ccLen_down (s T : ℕ) (hs : 1 ≤ s) (hT : s ≤ T) : ccLen (2 * s) s 1 T = T / s := by
  rw [ccLen_eq (2 * s) s 1 T (by omega) hs hT, Nat.div_eq_sub_div (by omega) hT]

theorem ctLen_up (s T : ℕ) (hs : 1 ≤ s) (hT : 1 ≤ T) : ctLen (2 * s) s 1 T = T * s := by
  have htrim : causalTrim (2 * s) s 1 = (s : ℤ) := by
    unfold causalTrim
    push_cast
    ring
  unfold ctLen
  rw [htrim]
  unfold sliceLen rawConvTLen
  rw [if_pos hT, if_pos (by omega : -(s : ℤ) < 0)]
  simp only [Int.natAbs_neg, Int.natAbs_ofNat]
  obtain ⟨T', rfl⟩ := Nat.exists_eq_add_of_le hT
  have h2 : (1 + T') * s = s + T' * s := by ring
  have h3 : 1 + T' - 1 = T' := by omega
  rw [h3, h2]
  omega

theorem causalConv1d_len (inCh outCh k s d : ℕ) (p : WB) (x : Sig) :
    (causalConv1d inCh outCh k s d p x).len = ccLen k s d x.len := rfl

theorem causalConv1d_ch (inCh outCh k s d : ℕ) (p : WB) (x : Sig) :
    (causalConv1d inCh outCh k s d p x).ch = outCh := rfl

theorem pointwise_len (act : ℚ → ℚ) (x : Sig) : (pointwise act x).len = x.len := rfl

theorem film_len (condDim : ℕ) (P : FilmP) (x : Sig) (cond : ℕ → ℚ) :
    (film condDim P x cond).len = x.len := rfl

theorem residualUnitFn_shape (channels dil k : ℕ) (p1 p2 : WB) (act : ℚ → ℚ) (x : Sig)
    (hk : 1 ≤ k) (hT : 1 ≤ x.len) :
    (residualUnitFn channels dil k p1 p2 act x).ch = channels ∧
    (residualUnitFn channels dil k p1 p2 act x).len = x.len := by
  refine ⟨rfl, ?_⟩
  show ccLen 1 1 1 (ccLen k 1 dil x.len) = x.len
  rw [ccLen_s1 k dil x.len hk hT, ccLen_s1 1 1 x.len le_rfl hT]

theorem residualUnit_len (channels dil k : ℕ) (p1 p2 : WB) (act : ℚ → ℚ) (x : Sig)
    (hk : 1 ≤ k) (hT : 1 ≤ x.len) :
    (residualUnit channels dil k p1 p2 act x).len = x.len :=
  (residualUnitFn_shape channels dil k p1 p2 act x hk hT).2

theorem residualNest_len (ch : ℕ) (a1 a2 b1 b2 c1 c2 : WB) (act : ℚ → ℚ) (x : Sig)
    (hT : 1 ≤ x.len) :
    (residualUnit ch 9 7 c1 c2 act (residualUnit ch 3 7 b1 b2 act
      (residualUnit ch 1 7 a1 a2 act x))).len = x.len := by
  have l1 := residualUnit_len ch 1 7 a1 a2 act x (by omega) hT
  have l2 := residualUnit_len ch 3 7 b1 b2 act
    (residualUnit ch 1 7 a1 a2 act x) (by omega) (by rw [l1]; exact hT)
  rw [l1] at l2
  have l3 := residualUnit_len ch 9 7 c1 c2 act
    (residualUnit ch 3 7 b1 b2 act (residualUnit ch 1 7 a1 a2 act x))
    (by omega) (by rw [l2]; exact hT)
  rw [l2] at l3
  exact l3

theorem encoderBlock_len (inCh outCh s : ℕ) (P : EncBlockP) (act : ℚ → ℚ) (x : Sig)
    (hs : 1 ≤ s) (hT : s ≤ x.len) :
    (encoderBlock inCh outCh s P act x).len = x.len / s := by
  have h1 : 1 ≤ x.len := le_trans hs hT
  unfold encoderBlock
  rw [pointwise_len, causalConv1d_len,
    residualNest_len inCh P.r1a P.r1b P.r2a P.r2b P.r3a P.r3b act x h1,
    ccLen_down s x.len hs hT]

theorem decoderBlock_len (inCh outCh s : ℕ) (P : DecBlockP) (act : ℚ → ℚ) (x : Sig)
    (hs : 1 ≤ s) (hT : 1 ≤ x.len) :
    (decoderBlock inCh outCh s P act x).len = x.len * s := by
  have lup : (causalConvTranspose1d inCh outCh (2 * s) s 1 P.up x).len = x.len * s := by
    show ctLen (2 * s) s 1 x.len = x.len * s
    exact ctLen_up s x.len hs hT
  have hpos : 1 ≤ (causalConvTranspose1d inCh outCh (2 * s) s 1 P.up x).len := by
    rw [lup]
    exact Nat.one_le_iff_ne_zero.mpr (by positivity)
  unfold decoderBlock
  rw [residualNest_len outCh P.r1a P.r1b P.r2a P.r2b P.r3a P.r3b act
    (causalConvTranspose1d inCh outCh (2 * s) s 1 P.up x) hpos, lup]

theorem encoder_frames (scale embDim : ℕ) (P : EncoderP) (act : ℚ → ℚ) (w : Wave)
    (hT : 320 ≤ w.len) :
    (encoder scale embDim P act w).frames = w.len / 320 := by
  unfold encoder
  obtain ⟨x0, hx0⟩ : ∃ z, pointwise act (causalConv1d 1 scale 7 1 1 P.stem (waveToSig w)) = z :=
    ⟨_, rfl⟩
  have e0 : x0.len = w.len := by
    rw [← hx0, pointwise_len, causalConv1d_len]
    exact ccLen_s1 7 1 w.len (by omega) (by omega)
  rw [hx0]
  obtain ⟨x1, hx1⟩ : ∃ z, encoderBlock scale (2 * scale) 2 P.blk1 act x0 = z := ⟨_, rfl⟩
  have e1 : x1.len = w.len / 2 := by
    rw [← hx1, encoderBlock_len scale (2 * scale) 2 P.blk1 act x0 (by omega) (by omega), e0]
  rw [hx1]
  obtain ⟨x2, hx2⟩ : ∃ z, encoderBlock (2 * scale) (4 * scale) 4 P.blk2 act x1 = z := ⟨_, rfl⟩
  have e2 : x2.len = w.len / 8 := by
    rw [← hx2, encoderBlock_len (2 * scale) (4 * scale) 4 P.blk2 act x1 (by omega) (by omega),
      e1, Nat.div_div_eq_div_mul]
  rw [hx2]
  obtain ⟨x3, hx3⟩ : ∃ z, encoderBlock (4 * scale) (8 * scale) 5 P.blk3 act x2 = z := ⟨_, rfl⟩
  have e3 : x3.len = w.len / 40 := by
    rw [← hx3, encoderBlock_len (4 * scale) (8 * scale) 5 P.blk3 act x2 (by omega) (by omega),
      e2, Nat.div_div_eq_div_mul]
  rw [hx3]
  obtain ⟨x4, hx4⟩ : ∃ z, encoderBlock (8 * scale) (16 * scale) 8 P.blk4 act x3 = z := ⟨_, rfl⟩
  have e4 : x4.len = w.len / 320 := by
    rw [← hx4, encoderBlock_len (8 * scale) (16 * scale) 8 P.blk4 act x3 (by omega) (by omega),
      e3, Nat.div_div_eq_div_mul]
  rw [hx4]
  show (pointwise act (causalConv1d (16 * scale) embDim 3 1 1 P.proj x4)).len = w.len / 320
  rw [pointwise_len, causalConv1d_len, e4]
  exact ccLen_s1 3 1 (w.len / 320) (by omega) (by omega)

theorem decoder_len (scale embDim condDim : ℕ) (P : DecoderP) (act : ℚ → ℚ)
    (f : Frames) (cond : ℕ → ℚ) (hF : 1 ≤ f.frames) :
    (decoder scale embDim condDim P act f cond).len = f.frames * 320 := by
  unfold decoder
  obtain ⟨y0, hy0⟩ :
      ∃ z, pointwise act (causalConv1d embDim (16 * scale) 7 1 1 P.stem (framesToSig f)) = z :=
    ⟨_, rfl⟩
  have e0 : y0.len = f.frames := by
    rw [← hy0, pointwise_len, causalConv1d_len]
    exact ccLen_s1 7 1 f.frames (by omega) hF
  rw [hy0]
  obtain ⟨y1, hy1⟩ : ∃ z, film condDim P.film1 (decoderBlock (16 * scale) (8 * scale) 8 P.blk1 act y0) cond = z :=
    ⟨_, rfl⟩
  have e1 : y1.len = f.frames * 8 := by
    rw [← hy1, film_len, decoderBlock_len (16 * scale) (8 * scale) 8 P.blk1 act y0 (by omega) (by omega), e0]
  rw [hy1]
  obtain ⟨y2, hy2⟩ : ∃ z, film condDim P.film2 (decoderBlock (8 * scale) (4 * scale) 5 P.blk2 act y1) cond = z :=
    ⟨_, rfl⟩
  have e2 : y2.len = f.frames * 40 := by
    rw [← hy2, film_len, decoderBlock_len (8 * scale) (4 * scale) 5 P.blk2 act y1 (by omega) (by omega), e1]
    omega
  rw [hy2]
  obtain ⟨y3, hy3⟩ : ∃ z, film condDim P.film3 (decoderBlock (4 * scale) (2 * scale) 4 P.blk3 act y2) cond = z :=
    ⟨_, rfl⟩
  have e3 : y3.len = f.frames * 160 := by
    rw [← hy3, film_len, decoderBlock_len (4 * scale) (2 * scale) 4 P.blk3 act y2 (by omega) (by omega), e2]
    omega
  rw [hy3]
  obtain ⟨y4, hy4⟩ : ∃ z, film condDim P.film4 (decoderBlock (2 * scale) scale 2 P.blk4 act y3) cond = z :=
    ⟨_, rfl⟩
  have e4 : y4.len = f.frames * 320 := by
    rw [← hy4, film_len, decoderBlock_len (2 * scale) scale 2 P.blk4 act y3 (by omega) (by omega), e3]
    omega
  rw [hy4]
  show (causalConv1d scale 1 7 1 1 P.proj y4).len = f.frames * 320
  rw [causalConv1d_len, e4]
  exact ccLen_s1 7 1 (f.frames * 320) (by omega) (by omega)

/-! ### Causality -/

/-- Two signals agree on the first `u` time steps (all channels). -/
def AgreeLt (u : ℕ) (x y : Sig) : Prop := ∀ c t, t < u → x.val c t = y.val c t

theorem padLeft_agree (p : ℤ) (u : ℕ) (x y : Sig) (h : AgreeLt u x y) :
    ∀ (c : ℕ) (m : ℕ), (m : ℤ) < (u : ℤ) + p →
      (padLeft p x).val c m = (padLeft p y).val c m := by
  intro c m hm
  unfold padLeft
  dsimp only
  by_cases hp : 0 ≤ p
  · rw [if_pos hp, if_pos hp]
    by_cases hm2 : m < p.toNat
    · rw [if_pos hm2, if_pos hm2]
    · rw [if_neg hm2, if_neg hm2]
      exact h c (m - p.toNat) (by omega)
  · rw [if_neg hp, if_neg hp]
    exact h c (m + p.natAbs) (by omega)

theorem causalConv1d_agree (inCh outCh k s d : ℕ) (p : WB) (u : ℕ) (x y : Sig)
    (hs : 1 ≤ s) (h : AgreeLt u x y) :
    AgreeLt (u / s) (causalConv1d inCh outCh k s d p x) (causalConv1d inCh outCh k s d p y) := by
  intro o j hj
  have hj2 : (j + 1) * s ≤ u := (Nat.le_div_iff_mul_le (by omega)).mp (by omega)
  unfold causalConv1d validConv
  dsimp only
  congr 1
  apply Finset.sum_congr rfl
  intro c hc
  apply Finset.sum_congr rfl
  intro i hi
  congr 1
  apply padLeft_agree (causalPadding k s d) u x y h
  have hik : (i : ℤ) ≤ (k : ℤ) - 1 := by
    have := Finset.mem_range.mp hi
    omega
  have hdi : (d : ℤ) * (i : ℤ) ≤ (d : ℤ) * ((k : ℤ) - 1) :=
    mul_le_mul_of_nonneg_left hik (by positivity)
  have hj3 : ((j : ℤ) + 1) * (s : ℤ) ≤ (u : ℤ) := by exact_mod_cast hj2
  unfold causalPadding
  push_cast
  nlinarith [hdi, hj3]

theorem pointwise_agree (act : ℚ → ℚ) (u : ℕ) (x y : Sig) (h : AgreeLt u x y) :
    AgreeLt u (pointwise act x) (pointwise act y) := by
  intro c t ht
  unfold pointwise
  dsimp only
  rw [h c t ht]

theorem addSig_agree (u : ℕ) (a b a2 b2 : Sig) (h : AgreeLt u a b) (h2 : AgreeLt u a2 b2) :
    AgreeLt u (addSig a a2) (addSig b b2) := by
  intro c t ht
  unfold addSig
  dsimp only
  rw [h c t ht, h2 c t ht]

theorem residualUnit_agree (channels dil k : ℕ) (p1 p2 : WB) (act : ℚ → ℚ) (u : ℕ)
    (x y : Sig) (h : AgreeLt u x y) :
    AgreeLt u (residualUnit channels dil k p1 p2 act x)
      (residualUnit channels dil k p1 p2 act y) := by
  have h1 := causalConv1d_agree channels channels k 1 dil p1 u x y le_rfl h
  rw [Nat.div_one] at h1
  have h2 := pointwise_agree act u _ _ h1
  have h3 := causalConv1d_agree channels channels 1 1 1 p2 u _ _ le_rfl h2
  rw [Nat.div_one] at h3
  have h4 := pointwise_agree act u _ _ h3
  exact addSig_agree u _ _ _ _ h4 h

theorem encoderBlock_agree (inCh outCh s : ℕ) (P : EncBlockP) (act : ℚ → ℚ) (u : ℕ)
    (x y : Sig) (hs : 1 ≤ s) (h : AgreeLt u x y) :
    AgreeLt (u / s) (encoderBlock inCh outCh s P act x) (encoderBlock inCh outCh s P act y) := by
  have h1 := residualUnit_agree inCh 1 7 P.r1a P.r1b act u x y h
  have h2 := residualUnit_agree inCh 3 7 P.r2a P.r2b act u _ _ h1
  have h3 := residualUnit_agree inCh 9 7 P.r3a P.r3b act u _ _ h2
  have h4 := causalConv1d_agree inCh outCh (2 * s) s 1 P.down u _ _ hs h3
  exact pointwise_agree act (u / s) _ _ h4

theorem residualUnit_len_fn (channels dil k : ℕ) (p1 p2 : WB) (act : ℚ → ℚ) (x : Sig) :
    (residualUnit channels dil k p1 p2 act x).len = ccLen 1 1 1 (ccLen k 1 dil x.len) := rfl

theorem encoderBlock_len_fn (inCh outCh s : ℕ) (P : EncBlockP) (act : ℚ → ℚ) (x : Sig) :
    (encoderBlock inCh outCh s P act x).len = encBlockLen s x.len := by
  unfold encoderBlock
  obtain ⟨z1, hz1⟩ : ∃ z, residualUnit inCh 1 7 P.r1a P.r1b act x = z := ⟨_, rfl⟩
  have f1 : z1.len = ruLen 1 x.len := by rw [← hz1, residualUnit_len_fn]; rfl
  rw [hz1]
  obtain ⟨z2, hz2⟩ : ∃ z, residualUnit inCh 3 7 P.r2a P.r2b act z1 = z := ⟨_, rfl⟩
  have f2 : z2.len = ruLen 3 (ruLen 1 x.len) := by
    rw [← hz2, residualUnit_len_fn, f1]
    rfl
  rw [hz2]
  obtain ⟨z3, hz3⟩ : ∃ z, residualUnit inCh 9 7 P.r3a P.r3b act z2 = z := ⟨_, rfl⟩
  have f3 : z3.len = ruLen 9 (ruLen 3 (ruLen 1 x.len)) := by
    rw [← hz3, residualUnit_len_fn, f2]
    rfl
  rw [hz3]
  rw [pointwise_len, causalConv1d_len, f3]
  rfl

theorem encoder_frames_fn (scale embDim : ℕ) (P : EncoderP) (act : ℚ → ℚ) (w : Wave) :
    (encoder scale embDim P act w).frames = encFramesLen w.len := by
  unfold encoder
  obtain ⟨x0, hx0⟩ : ∃ z, pointwise act (causalConv1d 1 scale 7 1 1 P.stem (waveToSig w)) = z :=
    ⟨_, rfl⟩
  have e0 : x0.len = ccLen 7 1 1 w.len := by rw [← hx0]; rfl
  rw [hx0]
  obtain ⟨x1, hx1⟩ : ∃ z, encoderBlock scale (2 * scale) 2 P.blk1 act x0 = z := ⟨_, rfl⟩
  have e1 : x1.len = encBlockLen 2 (ccLen 7 1 1 w.len) := by
    rw [← hx1, encoderBlock_len_fn, e0]
  rw [hx1]
  obtain ⟨x2, hx2⟩ : ∃ z, encoderBlock (2 * scale) (4 * scale) 4 P.blk2 act x1 = z := ⟨_, rfl⟩
  have e2 : x2.len = encBlockLen 4 (encBlockLen 2 (ccLen 7 1 1 w.len)) := by
    rw [← hx2, encoderBlock_len_fn, e1]
  rw [hx2]
  obtain ⟨x3, hx3⟩ : ∃ z, encoderBlock (4 * scale) (8 * scale) 5 P.blk3 act x2 = z := ⟨_, rfl⟩
  have e3 : x3.len = encBlockLen 5 (encBlockLen 4 (encBlockLen 2 (ccLen 7 1 1 w.len))) := by
    rw [← hx3, encoderBlock_len_fn, e2]
  rw [hx3]
  obtain ⟨x4, hx4⟩ : ∃ z, encoderBlock (8 * scale) (16 * scale) 8 P.blk4 act x3 = z := ⟨_, rfl⟩
  have e4 : x4.len
      = encBlockLen 8 (encBlockLen 5 (encBlockLen 4 (encBlockLen 2 (ccLen 7 1 1 w.len)))) := by
    rw [← hx4, encoderBlock_len_fn, e3]
  rw [hx4]
  show (pointwise act (causalConv1d (16 * scale) embDim 3 1 1 P.proj x4)).len = encFramesLen w.len
  rw [pointwise_len, causalConv1d_len, e4]
  rfl

theorem encoder_frames_congr (scale embDim : ℕ) (P : EncoderP) (act : ℚ → ℚ)
    (x y : Wave) (hlen : x.len = y.len) :
    (encoder scale embDim P act x).frames = (encoder scale embDim P act y).frames := by
  rw [encoder_frames_fn, encoder_frames_fn, hlen]

/-! ### Claims -/

/-- C1: Causality of the Encoder.  For every time index `t` and every two
input waveforms that are identical on samples `[0, t]` (and arbitrarily
different after `t`), the Encoder output frames fully contained within
`[0, t]` — i.e. the frames `j` whose receptive field ends at sample
`320*(j+1) - 1 ≤ t` — are bit-identical between the two runs, and the two
outputs have the same frame count. -/
theorem encoder_causality (scale embDim : ℕ) (P : EncoderP) (act : ℚ → ℚ)
    (x y : Wave) (t : ℕ) (hlen : x.len = y.len)
    (hagree : ∀ u, u ≤ t → x.val u = y.val u)
    (j : ℕ) (hj : 320 * (j + 1) ≤ t + 1) :
    (encoder scale embDim P act x).frames = (encoder scale embDim P act y).frames ∧
    ∀ e, (encoder scale embDim P act x).val j e = (encoder scale embDim P act y).val j e := by
  refine ⟨encoder_frames_congr scale embDim P act x y hlen, ?_⟩
  have h0 : AgreeLt (t + 1) (waveToSig x) (waveToSig y) := by
    intro c u hu
    exact hagree u (by omega)
  have h1 := causalConv1d_agree 1 scale 7 1 1 P.stem (t + 1) _ _ le_rfl h0
  rw [Nat.div_one] at h1
  have h2 := pointwise_agree act (t + 1) _ _ h1
  have h3 := encoderBlock_agree scale (2 * scale) 2 P.blk1 act (t + 1) _ _ (by omega) h2
  have h4 := encoderBlock_agree (2 * scale) (4 * scale) 4 P.blk2 act ((t + 1) / 2) _ _
    (by omega) h3
  have h5 := encoderBlock_agree (4 * scale) (8 * scale) 5 P.blk3 act ((t + 1) / 2 / 4) _ _
    (by omega) h4
  have h6 := encoderBlock_agree (8 * scale) (16 * scale) 8 P.blk4 act ((t + 1) / 2 / 4 / 5) _ _
    (by omega) h5
  have h7 := causalConv1d_agree (16 * scale) embDim 3 1 1 P.proj ((t + 1) / 2 / 4 / 5 / 8) _ _
    le_rfl h6
  rw [Nat.div_one] at h7
  have h8 := pointwise_agree act ((t + 1) / 2 / 4 / 5 / 8) _ _ h7
  intro e
  exact h8 e j (by omega)

/-- Witness for C1: two length-400 waveforms agreeing on samples `[0, 319]`
and differing afterwards; frame 0 (receptive field `[0, 319]`) matches. -/
theorem encoder_causality_witness :
    ((constWave 400).len = (stepWave 400 319).len ∧
      (∀ u, u ≤ 319 → (constWave 400).val u = (stepWave 400 319).val u) ∧
      320 * (0 + 1) ≤ 319 + 1) ∧
    (∀ e, (encoder 1 1 zeroEncoderP id (constWave 400)).val 0 e
        = (encoder 1 1 zeroEncoderP id (stepWave 400 319)).val 0 e) := by
  have hagree : ∀ u, u ≤ 319 → (constWave 400).val u = (stepWave 400 319).val u := by
    intro u hu
    show (0 : ℚ) = if u ≤ 319 then 0 else 1
    rw [if_pos hu]
  refine ⟨⟨rfl, hagree, by omega⟩, ?_⟩
  exact (encoder_causality 1 1 zeroEncoderP id (constWave 400) (stepWave 400 319) 319 rfl
    hagree 0 (by omega)).2

/-- C2 counterexample: a `CausalConv1d` with `kernel_size = 4`, `stride = 2`,
`dilation = 1` on an input of time length `T = 5` yields 2 output steps,
whereas `ceil(T / stride) = ceil(5 / 2) = 3`: the claimed reduction of the
length formula to `ceil(T/stride)` fails. -/
theorem causalConv1d_not_ceil :
    (causalConv1d 1 1 4 2 1 zeroWB (constSig 1 5)).len ≠ (5 + 2 - 1) / 2 := by decide

/-- C2 (amended): for every `CausalConv1d(kernel_size, stride, dilation)` with
`p = causal_padding` and every input of time length `T ≥ stride`, the output
time length equals `floor((T + p - dilation*(kernel_size-1) - 1)/stride) + 1`;
this value equals `floor(T/stride)` in general, hence `ceil(T/stride)` exactly
when `stride` divides `T` (not for every `T`). -/
theorem causalConv1d_len_formula (inCh outCh k s d : ℕ) (p : WB) (x : Sig) (T : ℕ)
    (hx : x.len = T) (hk : 1 ≤ k) (hs : 1 ≤ s) (hT : s ≤ T) :
    ((causalConv1d inCh outCh k s d p x).len : ℤ)
        = ((T : ℤ) + causalPadding k s d - (d : ℤ) * ((k : ℤ) - 1) - 1) / (s : ℤ) + 1 ∧
    (causalConv1d inCh outCh k s d p x).len = T / s ∧
    (s ∣ T → (causalConv1d inCh outCh k s d p x).len = (T + s - 1) / s) := by
  have hlen : (causalConv1d inCh outCh k s d p x).len = (T - s) / s + 1 := by
    rw [causalConv1d_len, hx]
    exact ccLen_eq k s d T hk hs hT
  have hfloor : (causalConv1d inCh outCh k s d p x).len = T / s := by
    rw [hlen, Nat.div_eq_sub_div (by omega) hT]
  refine ⟨?_, hfloor, ?_⟩
  · rw [hlen]
    have hnum : (T : ℤ) + causalPadding k s d - (d : ℤ) * ((k : ℤ) - 1) - 1
        = ((T - s : ℕ) : ℤ) := by
      have h2 : ((T - s : ℕ) : ℤ) = (T : ℤ) - (s : ℤ) := by omega
      rw [h2]
      unfold causalPadding
      ring
    rw [hnum]
    push_cast [Int.ofNat_div]
    omega
  · intro hdvd
    rw [hfloor]
    obtain ⟨q, rfl⟩ := hdvd
    rw [Nat.mul_div_cancel_left q (by omega)]
    have hA : s * q + s - 1 = (s - 1) + s * q := by
      generalize s * q = A
      omega
    rw [hA, Nat.add_mul_div_left (s - 1) q (by omega : 0 < s),
      Nat.div_eq_of_lt (by omega)]
    omega

/-- Witness for C2 at `kernel_size = 4`, `stride = 2`, `dilation = 1`,
`T = 6`: the output length is `6 / 2 = 3`. -/
theorem causalConv1d_len_formula_witness :
    ((1 : ℕ) ≤ 4 ∧ (1 : ℕ) ≤ 2 ∧ (2 : ℕ) ≤ 6) ∧
    (causalConv1d 1 1 4 2 1 zeroWB (constSig 1 6)).len = 6 / 2 :=
  ⟨⟨by decide, by decide, by decide⟩,
   (causalConv1d_len_formula 1 1 4 2 1 zeroWB (constSig 1 6) 6 rfl (by decide) (by decide)
     (by decide)).2.1⟩

/-- C3 counterexample: on a waveform of 321 samples the Encoder produces
`floor(321/320) = 1` frame, not `ceil(321/320) = 2` frames as claimed. -/
theorem encoder_frames_not_ceil :
    (encoder 1 1 zeroEncoderP id (constWave 321)).frames ≠ (321 + 320 - 1) / 320 := by
  have h := encoder_frames 1 1 zeroEncoderP id (constWave 321) (by norm_num [constWave])
  rw [h]
  norm_num [constWave]

/-- C3 (amended): for every scale, embedding dimension, parameters and every
waveform of at least 320 samples, the Encoder returns a frame-major tensor
whose embedding dimension is `embedding_dim` and whose frame count is
`floor(samples / 320)` (not `ceil`); concretely 16000 samples give exactly 50
frames. -/
theorem encoder_output_shape (scale embDim : ℕ) (P : EncoderP) (act : ℚ → ℚ) (w : Wave)
    (hT : 320 ≤ w.len) :
    (encoder scale embDim P act w).frames = w.len / 320 ∧
    (encoder scale embDim P act w).dim = embDim ∧
    (w.len = 16000 → (encoder scale embDim P act w).frames = 50) := by
  have h := encoder_frames scale embDim P act w hT
  refine ⟨h, rfl, ?_⟩
  intro h16
  rw [h, h16]

/-- Witness for C3 at 16000 samples: 50 frames. -/
theorem encoder_output_shape_witness :
    (320 : ℕ) ≤ (constWave 16000).len ∧
    (encoder 2 3 zeroEncoderP id (constWave 16000)).frames = 50 :=
  ⟨by norm_num [constWave],
   (encoder_output_shape 2 3 zeroEncoderP id (constWave 16000) (by norm_num [constWave])).2.2
     rfl⟩

/-- C4: round-trip shape law of the Decoder.  For every frame count `F ≥ 1`
(an empty sequence is rejected by the first convolution), every embedding
sequence with `F` frames and every conditioning vector, `Decoder.forward`
returns a waveform of exactly `F * 320` samples. -/
theorem decoder_roundtrip_shape (scale embDim condDim : ℕ) (P : DecoderP) (act : ℚ → ℚ)
    (f : Frames) (cond : ℕ → ℚ) (hF : 1 ≤ f.frames) :
    (decoder scale embDim condDim P act f cond).len = f.frames * 320 :=
  decoder_len scale embDim condDim P act f cond hF

/-- Witness for C4: two frames decode to exactly 640 samples. -/
theorem decoder_roundtrip_shape_witness :
    (1 : ℕ) ≤ (constFrames 2 3).frames ∧
    (decoder 1 3 4 zeroDecoderP id (constFrames 2 3) (fun _ => 0)).len
      = (constFrames 2 3).frames * 320 :=
  ⟨by decide,
   decoder_roundtrip_shape 1 3 4 zeroDecoderP id (constFrames 2 3) (fun _ => 0) (by decide)⟩

/-- C5 counterexample: `CausalConvTranspose1d` with `kernel_size = 3`,
`stride = 1`, `dilation = 2` on an input of time length 1 returns 1 time step
(raw length `dilation*(kernel_size-1) + 1 = 5` minus `causal_trim = 4`),
whereas the claimed formula `(T-1)*stride + kernel_size - causal_trim` gives
`0 + 3 - 4 = -1`. -/
theorem causalConvTranspose1d_len_dilated :
    ((causalConvTranspose1d 1 1 3 1 2 zeroWB (constSig 1 1)).len : ℤ)
      ≠ ((1 : ℤ) - 1) * 1 + 3 - causalTrim 3 1 2 := by decide

/-- C5 (amended): for every `CausalConvTranspose1d` with `dilation = 1` and
`kernel_size > stride` (so `causal_trim = kernel_size - stride > 0`; torch's
raw length term `dilation*(kernel_size-1) + 1` then equals `kernel_size`) and
every input of time length `T ≥ 1`, the output time length is
`(T-1)*stride + kernel_size - causal_trim`, which equals `T*stride`; the
kernel/stride pairs used satisfy `kernel_size = 2*stride`. -/
theorem causalConvTranspose1d_len_formula (inCh outCh k s : ℕ) (p : WB) (x : Sig) (T : ℕ)
    (hx : x.len = T) (hs : 1 ≤ s) (hk : s < k) (hT : 1 ≤ T) :
    ((causalConvTranspose1d inCh outCh k s 1 p x).len : ℤ)
        = ((T : ℤ) - 1) * (s : ℤ) + (k : ℤ) - causalTrim k s 1 ∧
    (causalConvTranspose1d inCh outCh k s 1 p x).len = T * s := by
  have htrim : causalTrim k s 1 = (k : ℤ) - (s : ℤ) := by
    unfold causalTrim
    ring
  have h2 : (causalConvTranspose1d inCh outCh k s 1 p x).len = T * s := by
    show ctLen k s 1 x.len = T * s
    rw [hx]
    unfold ctLen
    rw [htrim]
    unfold sliceLen rawConvTLen
    rw [if_pos (by omega : -((k : ℤ) - (s : ℤ)) < 0), if_pos hT]
    have habs : (-((k : ℤ) - (s : ℤ))).natAbs = k - s := by omega
    rw [habs]
    obtain ⟨T2, rfl⟩ := Nat.exists_eq_add_of_le hT
    have h3 : (1 + T2 - 1) * s = T2 * s := by
      congr 1
      omega
    have h4 : (1 + T2) * s = s + T2 * s := by ring
    rw [h3, h4]
    generalize T2 * s = A
    omega
  refine ⟨?_, h2⟩
  rw [h2, htrim]
  have h5 : ((T * s : ℕ) : ℤ) = (T : ℤ) * (s : ℤ) := by push_cast; ring
  rw [h5]
  ring

/-- Witness for C5 at `kernel_size = 4 = 2*stride`, `stride = 2`, `T = 3`:
the output has `3 * 2 = 6` time steps. -/
theorem causalConvTranspose1d_len_formula_witness :
    ((1 : ℕ) ≤ 2 ∧ (2 : ℕ) < 4 ∧ (1 : ℕ) ≤ 3) ∧
    (causalConvTranspose1d 1 1 4 2 1 zeroWB (constSig 1 3)).len = 3 * 2 :=
  ⟨⟨by decide, by decide, by decide⟩,
   (causalConvTranspose1d_len_formula 1 1 4 2 zeroWB (constSig 1 3) 3 rfl (by decide)
     (by decide) (by decide)).2⟩

/-- C10: whenever the constructed parameters give
`causal_trim = dilation*(kernel_size-1) - (stride-1) = 0` (e.g. kernel 1,
stride 1, dilation 1), `CausalConvTranspose1d.forward` returns a tensor with
an EMPTY time axis for every input, because the right trim is the Python
slice `out[..., :-0] = out[..., :0]`, which discards the whole axis instead
of trimming nothing. -/
theorem causalConvTranspose1d_trim_zero (inCh outCh k s d : ℕ) (p : WB) (x : Sig)
    (htrim : causalTrim k s d = 0) (hT : 1 ≤ x.len) :
    (causalConvTranspose1d inCh outCh k s d p x).len = 0 := by
  show sliceLen (-(causalTrim k s d)) (rawConvTLen k s d x.len) = 0
  rw [htrim]
  unfold sliceLen
  rw [if_neg (by omega)]
  simp

/-- Witness for C10: kernel 1, stride 1, dilation 1 on a 3-step input gives
an empty output. -/
theorem causalConvTranspose1d_trim_zero_witness :
    (causalTrim 1 1 1 = 0 ∧ 1 ≤ (constSig 1 3).len) ∧
    (causalConvTranspose1d 1 1 1 1 1 zeroWB (constSig 1 3)).len = 0 :=
  ⟨⟨by decide, by decide⟩,
   causalConvTranspose1d_trim_zero 1 1 1 1 1 zeroWB (constSig 1 3) (by decide) (by decide)⟩

/-- C6 (code bug): `LearnablePooling.forward` never returns a pooled tensor:
for EVERY input shape the call raises — a 3-D `(batch, frames, dim)` input
fails `nn.MultiheadAttention`'s shape check against the 2-D stored query
`(1, dim)`, and any input that passes the check still reaches
`.squeeze(-2)` applied to the `(attn_output, attn_weights)` tuple. -/
theorem learnablePooling_always_raises (dim : ℕ) (xShape : List ℕ) :
    ∃ e, learnablePoolingForward dim xShape = Except.error e := by
  unfold learnablePoolingForward
  cases mhaForwardShape [1, dim] xShape xShape
  · exact ⟨_, rfl⟩
  · exact ⟨_, rfl⟩

/-- C6 evaluation at the failing input of the claim's shape, `dim = 64` and
`x` of shape `(2, 10, 64)`: the attention shape check rejects the 2-D query
paired with a 3-D key. -/
theorem learnablePooling_raises_at_batch :
    learnablePoolingForward 64 [2, 10, 64]
      = Except.error "AssertionError: key and value must be 2-D when query is 2-D" := rfl

/-- C7 counterexample: constructing `CausalConv1d` with the unsupported
`padding_mode = "bogus"` does NOT raise at construction — the mode string is
stored unvalidated and construction succeeds. -/
theorem causalConv1dInit_accepts_bad_mode :
    causalConv1dInit [] "bogus" = Except.ok "bogus" := rfl

/-- C7 (amended): supplying an explicit `padding` argument to `CausalConv1d`,
or `padding`/`output_padding` to `CausalConvTranspose1d`, raises at
construction time; but an unsupported `padding_mode` is accepted at
construction and only raises later, inside the `F.pad` call of the first
`forward`. -/
theorem config_error_behaviour (mode : String) (hmode : ¬ mode ∈ fPadModes)
    (hz : mode ≠ "zeros") :
    (causalConv1dInit ["padding"] mode).isOk = false ∧
    (causalConvTranspose1dInit ["padding"]).isOk = false ∧
    (causalConvTranspose1dInit ["output_padding"]).isOk = false ∧
    causalConv1dInit [] mode = Except.ok mode ∧
    fPadModeCheck mode = Except.error "NotImplementedError: unknown padding mode" := by
  refine ⟨?_, ?_, ?_, ?_, ?_⟩
  · unfold causalConv1dInit
    rw [if_pos (by decide : "padding" ∈ ["padding"])]
    rfl
  · unfold causalConvTranspose1dInit
    rw [if_pos (by decide : "padding" ∈ ["padding"] ∨ "output_padding" ∈ ["padding"])]
    rfl
  · unfold causalConvTranspose1dInit
    rw [if_pos
      (by decide : "padding" ∈ ["output_padding"] ∨ "output_padding" ∈ ["output_padding"])]
    rfl
  · unfold causalConv1dInit
    rw [if_neg (by decide : ¬ "padding" ∈ ([] : List String)), if_neg hz]
  · unfold fPadModeCheck
    rw [if_neg hmode]

/-- Witness for C7 at `padding_mode = "bogus"`. -/
theorem config_error_behaviour_witness :
    (¬ "bogus" ∈ fPadModes ∧ "bogus" ≠ "zeros") ∧
    ((causalConv1dInit ["padding"] "bogus").isOk = false ∧
      causalConv1dInit [] "bogus" = Except.ok "bogus") := by
  have h := config_error_behaviour "bogus" (by decide) (by decide)
  exact ⟨⟨by decide, by decide⟩, h.1, h.2.2.2.1⟩

/-- C8: FiLM identity law.  If `to_gamma` sends every conditioning input to
the all-ones vector and `to_beta` sends every conditioning input to the
all-zeros vector, then `FiLM.forward(x, c) = x` for all `x` and `c`. -/
theorem film_identity (condDim : ℕ) (P : FilmP)
    (hg : ∀ (cond : ℕ → ℚ) (c : ℕ), linAp condDim P.toGamma cond c = 1)
    (hb : ∀ (cond : ℕ → ℚ) (c : ℕ), linAp condDim P.toBeta cond c = 0) :
    ∀ (x : Sig) (cond : ℕ → ℚ), film condDim P x cond = x := by
  intro x cond
  cases x with
  | mk ch len v =>
    unfold film
    dsimp only
    congr 1
    funext c t
    rw [hg cond c, hb cond c, mul_one, add_zero]

/-- Witness for C8: `idFilmP` (zero weights, all-ones gamma bias, all-zeros
beta) fixes a concrete signal. -/
theorem film_identity_witness :
    ((∀ (cond : ℕ → ℚ) (c : ℕ), linAp 3 idFilmP.toGamma cond c = 1) ∧
      (∀ (cond : ℕ → ℚ) (c : ℕ), linAp 3 idFilmP.toBeta cond c = 0)) ∧
    film 3 idFilmP (constSig 2 4) (fun _ => 7) = constSig 2 4 := by
  have hg : ∀ (cond : ℕ → ℚ) (c : ℕ), linAp 3 idFilmP.toGamma cond c = 1 := by
    intro cond c
    unfold linAp idFilmP onesLinP
    simp
  have hb : ∀ (cond : ℕ → ℚ) (c : ℕ), linAp 3 idFilmP.toBeta cond c = 0 := by
    intro cond c
    unfold linAp idFilmP zeroLinP
    simp
  exact ⟨⟨hg, hb⟩, film_identity 3 idFilmP hg hb (constSig 2 4) (fun _ => 7)⟩

/-- C9: ResidualUnit shape safety.  For every `ResidualUnit(channels,
dilation, kernel_size ≥ 1)` and every nonempty input `x` with `channels`
channels, the wrapped transform preserves both the channel count and the time
length exactly, so the residual sum `fn(x) + x` is shape-safe and keeps the
shape of `x`. -/
theorem residualUnit_shape_safe (channels dil k : ℕ) (p1 p2 : WB) (act : ℚ → ℚ) (x : Sig)
    (hch : x.ch = channels) (hk : 1 ≤ k) (hT : 1 ≤ x.len) :
    (residualUnitFn channels dil k p1 p2 act x).ch = x.ch ∧
    (residualUnitFn channels dil k p1 p2 act x).len = x.len ∧
    (residualUnit channels dil k p1 p2 act x).ch = x.ch ∧
    (residualUnit channels dil k p1 p2 act x).len = x.len := by
  have h := residualUnitFn_shape channels dil k p1 p2 act x hk hT
  refine ⟨?_, h.2, ?_, h.2⟩
  · rw [h.1, hch]
  · show (residualUnitFn channels dil k p1 p2 act x).ch = x.ch
    rw [h.1, hch]

/-- Witness for C9: a residual unit with dilation 3 and kernel 7 on a
2-channel, 5-step signal. -/
theorem residualUnit_shape_safe_witness :
    ((constSig 2 5).ch = 2 ∧ (1 : ℕ) ≤ 7 ∧ 1 ≤ (constSig 2 5).len) ∧
    ((residualUnitFn 2 3 7 zeroWB zeroWB id (constSig 2 5)).len = (constSig 2 5).len ∧
      (residualUnit 2 3 7 zeroWB zeroWB id (constSig 2 5)).len = (constSig 2 5).len) := by
  have h := residualUnit_shape_safe 2 3 7 zeroWB zeroWB id (constSig 2 5) rfl (by decide)
    (by decide)
  exact ⟨⟨rfl, by decide, by decide⟩, h.2.1, h.2.2.2⟩
